import Mathlib

/-!
Verification development for the Spice21 circuit simulator core.
The Mos1 level-1 MOSFET device model (src/spice21/src/comps/mos.rs) and the
hierarchy elaborator (src/spice21/src/elab.rs) are embedded shallowly:
f64 arithmetic is modelled over the real numbers, Rust panics become
`Except.error`, and mutation becomes explicit state passing.
-/

namespace Spice21

noncomputable section

/-- Modelled from the spec: physical constants of the `consts` module, whose
source file is not part of the provided sources. Values follow standard
SPICE usage; no theorem below depends on these numeric values. -/
def TEMP_REF : ℝ := 300.15

/-- Modelled from the spec: Boltzmann constant from the missing `consts` module. -/
def KB : ℝ := 1.3806226e-23

/-- Modelled from the spec: electron charge from the missing `consts` module. -/
def Q : ℝ := 1.6021918e-19

/-- Modelled from the spec: k over q from the missing `consts` module. -/
def KB_OVER_Q : ℝ := KB / Q

/-- Modelled from the spec: square root of two from the missing `consts` module. -/
def SQRT2 : ℝ := Real.sqrt 2

/-- Modelled from the spec: analysis `Options` (analysis.rs is not in the
provided sources); only the fields read by the Mos1 code are kept:
`temp` in Kelvin and `gmin` (section 6 of the spec). -/
structure Options where
  temp : ℝ
  gmin : ℝ

/-- MOS transistor polarity type, from mos.rs. -/
inductive MosType where
  | NMOS
  | PMOS
deriving DecidableEq

/-- Polarity function: -1 for PMOS, +1 for NMOS (mos.rs `MosType::p`). -/
def MosType.p : MosType → ℝ
  | .PMOS => -1
  | .NMOS => 1

/-- Mos Level 1 model parameters (mos.rs `Mos1Model`). -/
structure Mos1Model where
  mos_type : MosType
  vt0 : ℝ
  kp : ℝ
  gamma : ℝ
  cox_per_area : ℝ
  phi : ℝ
  lambda : ℝ
  cbd : ℝ
  cbs : ℝ
  is : ℝ
  pb : ℝ
  cgso : ℝ
  cgdo : ℝ
  cgbo : ℝ
  cj : ℝ
  mj : ℝ
  cjsw : ℝ
  mjsw : ℝ
  js : ℝ
  tox : ℝ
  ld : ℝ
  fc : ℝ
  tnom : ℝ
  kf : ℝ
  af : ℝ
  rd : Option ℝ
  rs : Option ℝ
  rsh : Option ℝ

/-- Model polarity accessor (mos.rs `Mos1Model::p`). -/
def Mos1Model.p (m : Mos1Model) : ℝ := m.mos_type.p

/-- Mos Level 1 instance parameters (mos.rs `Mos1InstanceParams`). -/
structure Mos1InstanceParams where
  m : ℝ
  l : ℝ
  w : ℝ
  a_d : ℝ
  a_s : ℝ
  pd : ℝ
  ps : ℝ
  nrd : ℝ
  nrs : ℝ
  temp : Option ℝ

/-- Source/drain tag (mos.rs `SourceDrain`). -/
inductive SourceDrain where
  | S
  | D
deriving DecidableEq

/-- Per-junction derived parameters (mos.rs `MosJunction`). -/
structure MosJunction where
  area : ℝ
  isat : ℝ
  depletion_threshold : ℝ
  bulkpot_t : ℝ
  vcrit : ℝ
  czb : ℝ
  czbsw : ℝ
  f2 : ℝ
  f3 : ℝ
  f4 : ℝ
  sd : SourceDrain

/-- Mos1 internal parameters, derived at instance construction
(mos.rs `Mos1InternalParams`). -/
structure Mos1InternalParams where
  temp : ℝ
  vtherm : ℝ
  vt0_t : ℝ
  kp_t : ℝ
  phi_t : ℝ
  beta : ℝ
  cox : ℝ
  cgs_ov : ℝ
  cgd_ov : ℝ
  cgb_ov : ℝ
  leff : ℝ
  drain_junc : MosJunction
  source_junc : MosJunction
  grd : ℝ
  grs : ℝ

/-- Internal-parameter derivation (mos.rs `Mos1InternalParams::derive`,
lines 320-476). Rust panics are modelled as `Except.error`; the two abort
sites are the unsupported instance-temperature override and the negative
effective length. The `println` warnings on non-positive resistances are
dropped (they only log); the computed conductance values are kept. -/
def Mos1InternalParams.derive (model : Mos1Model) (inst : Mos1InstanceParams)
    (opts : Options) : Except String Mos1InternalParams :=
  match inst.temp with
  | some _ => .error "Mos1 Instance Temperatures Are Not Supported"
  | none =>
    let temp := opts.temp
    -- Nominal temperature params
    let fact1 := model.tnom / TEMP_REF
    let vtnom := model.tnom * KB_OVER_Q
    let kt1 := KB * model.tnom
    let egfet1 := 1.16 - (7.02e-4 * model.tnom ^ 2) / (model.tnom + 1108)
    let arg1 := -egfet1 / 2 / kt1 + 1.1150877 / (KB * 2 * TEMP_REF)
    let pbfact1 := -2 * vtnom * (1.5 * Real.log fact1 + Q * arg1)
    -- Instance temperature params
    let kt := temp * KB
    let vtherm := temp * KB_OVER_Q
    let temp_ratio := temp / model.tnom
    let fact2 := temp / TEMP_REF
    let egfet := 1.16 - (7.02e-4 * temp ^ 2) / (temp + 1108)
    let arg := -egfet / 2 / kt + 1.1150877 / (KB * 2 * TEMP_REF)
    let pbfact := -2 * vtherm * (1.5 * Real.log fact2 + Q * arg)
    -- Effective length
    let leff := inst.l - 2 * model.ld
    if leff < 0 then .error "Mos1 Effective Length < 0"
    else
      let phio := (model.phi - pbfact1) / fact1
      let phi_t := fact2 * phio + pbfact
      let vbi_t := model.vt0 - model.p * (model.gamma * Real.sqrt model.phi)
        + 0.5 * (egfet1 - egfet) + model.p * 0.5 * (phi_t - model.phi)
      let vt0_t := vbi_t + model.p * model.gamma * Real.sqrt phi_t
      let isat_t := model.is * Real.exp (-egfet / vtherm + egfet1 / vtnom)
      let jsat_t := model.js * Real.exp (-egfet / vtherm + egfet1 / vtnom)
      let pbo := (model.pb - pbfact1) / fact1
      let gmaold := (model.pb - pbo) / pbo
      let capfact := 1 / (1 + model.mj * (4e-4 * (model.tnom - TEMP_REF) - gmaold))
      let cbd_t := model.cbd * capfact
      let cbs_t := model.cbs * capfact
      let cj_t := model.cj * capfact
      let capfact := 1 / (1 + model.mjsw * (4e-4 * (model.tnom - TEMP_REF) - gmaold))
      let cjsw_t := model.cjsw * capfact
      let bulkpot_t := fact2 * pbo + pbfact
      let gmanew := (bulkpot_t - pbo) / pbo
      let capfact := 1 / (1 + model.mj * (4e-4 * (temp - TEMP_REF) - gmanew))
      let cbd_t := cbd_t * capfact
      let cbs_t := cbs_t * capfact
      let cj_t := cj_t * capfact
      let capfact := 1 / (1 + model.mjsw * (4e-4 * (temp - TEMP_REF) - gmanew))
      let cjsw_t := cjsw_t * capfact
      -- S/D junction params
      let depletion_threshold := model.fc * bulkpot_t
      let arg := 1 - model.fc
      let sarg := Real.exp (-model.mj * Real.log arg)
      let sargsw := Real.exp (-model.mjsw * Real.log arg)
      let junc_new := fun (area perim : ℝ) (sd : SourceDrain) =>
        let isat := if jsat_t = 0 ∨ inst.a_d = 0 ∨ inst.a_s = 0 then isat_t else jsat_t * area
        let vcrit := vtherm * Real.log (vtherm / (SQRT2 * isat))
        let czb :=
          match sd with
          | SourceDrain.D => if model.cbd = 0 then cj_t * area else cbd_t
          | SourceDrain.S => if model.cbs = 0 then cj_t * area else cbs_t
        let czbsw := cjsw_t * perim
        let f2 := czb * (1 - model.fc * (1 + model.mj)) * sarg / arg
          + czbsw * (1 - model.fc * (1 + model.mjsw)) * sargsw / arg
        let f3 := czb * model.mj * sarg / arg / bulkpot_t
          + czbsw * model.mjsw * sargsw / arg / bulkpot_t
        let f4 := czb * bulkpot_t * (1 - arg * sarg) / (1 - model.mj)
          + czbsw * bulkpot_t * (1 - arg * sargsw) / (1 - model.mjsw)
          - f3 / 2 * (depletion_threshold * depletion_threshold)
          - depletion_threshold * f2
        MosJunction.mk area isat depletion_threshold bulkpot_t vcrit czb czbsw f2 f3 f4 sd
      let drain_junc := junc_new inst.a_d inst.pd SourceDrain.D
      let source_junc := junc_new inst.a_s inst.ps SourceDrain.S
      -- Terminal ohmic resistances
      let grs :=
        match model.rs with
        | some r => if r ≤ 0 then 0 else 1 / r
        | none =>
          match model.rsh with
          | some rsh => if rsh ≤ 0 then 0 else 1 / rsh / inst.nrs
          | none => 0
      let grd :=
        match model.rd with
        | some r => if r ≤ 0 then 0 else 1 / r
        | none =>
          match model.rsh with
          | some rsh => if rsh ≤ 0 then 0 else 1 / rsh / inst.nrd
          | none => 0
      -- Temperature-adjusted transconductance
      let kp_t := model.kp / temp_ratio * Real.sqrt temp_ratio
      .ok {
        vt0_t := vt0_t
        kp_t := kp_t
        temp := temp
        vtherm := vtherm
        leff := leff
        cox := model.cox_per_area * leff * inst.w
        beta := kp_t * inst.w / leff
        phi_t := phi_t
        drain_junc := drain_junc
        source_junc := source_junc
        cgs_ov := inst.w * model.cgso
        cgd_ov := inst.w * model.cgdo
        cgb_ov := leff * model.cgbo
        grs := grs
        grd := grd }

/-- Modelled from the spec: the result of the `integq` integration primitive
(spec section 4.5), a (conductance, current, right-hand-side) triple. The
`ChargeInteg` type lives in analysis.rs, which is not in the provided
sources; Rust's derived `Default` is the all-zero triple. -/
structure ChargeInteg where
  g : ℝ
  i : ℝ
  rhs : ℝ

/-- The all-zero `ChargeInteg`, Rust's derived default. -/
def ChargeInteg.zero : ChargeInteg := ⟨0, 0, 0⟩

/-- Modelled from the spec: the transient-engine state seen by a device is
used only through its `integq(dq, c, v, i_prev)` primitive (spec section
4.5); `TranState` lives in analysis.rs, which is not in the provided
sources, so it is kept abstract as the integration function itself. -/
structure TranState where
  integq : ℝ → ℝ → ℝ → ℝ → ChargeInteg

/-- Modelled from the spec: the AC analysis state carries the angular
frequency omega (spec section 4.6); the full type lives in analysis.rs,
which is not in the provided sources. -/
structure AcState where
  omega : ℝ

/-- Modelled from the spec: the analysis descriptor passed to device loads.
mos.rs matches on the TRAN and AC variants and treats every other analysis
alike, so the remaining variants are collapsed into `dcop`. -/
inductive AnalysisInfo where
  | dcop
  | tran (state : TranState)
  | ac (state : AcState)

/-- Local structure for per-capacitance transient integration results
(mos.rs `Mos1TranState`). -/
structure Mos1TranState where
  gs : ChargeInteg
  gd : ChargeInteg
  gb : ChargeInteg
  bs : ChargeInteg
  bd : ChargeInteg

/-- The all-zero transient state, Rust's derived default. -/
def Mos1TranState.zero : Mos1TranState := ⟨.zero, .zero, .zero, .zero, .zero⟩

/-- Mos1 DC and transient operating point (mos.rs `Mos1OpPoint`). -/
structure Mos1OpPoint where
  ids : ℝ
  vgs : ℝ
  vds : ℝ
  vgd : ℝ
  vgb : ℝ
  vdb : ℝ
  vsb : ℝ
  gm : ℝ
  gds : ℝ
  gmbs : ℝ
  gbs : ℝ
  gbd : ℝ
  cgs : ℝ
  cgd : ℝ
  cgb : ℝ
  cbs : ℝ
  cbd : ℝ
  reversed : Bool
  tr : Mos1TranState

/-- Mos1 node variables, including the internal drain/source primes
(mos.rs `Mos1Var`). -/
inductive Mos1Var where
  | D
  | G
  | S
  | B
  | DP
  | SP
deriving DecidableEq

/-- The six node slots of a Mos1 device (mos.rs `Mos1Vars<T>`). -/
structure Mos1Vars (T : Type) where
  d : T
  dp : T
  g : T
  s : T
  sp : T
  b : T

/-- Per-device matrix and right-hand-side contributions (spec section 3,
analysis.rs `Stamps`). In the source the `g` entries are keyed by reserved
matrix-element handles `matps[(row, col)]` and the `b` entries by the
device's port variable indices; since those tables are per-device injective
bookkeeping, stamps are keyed here directly by the `Mos1Var` node labels. -/
structure Stamps (T : Type) where
  g : List ((Mos1Var × Mos1Var) × T)
  b : List (Mos1Var × T)

/-- Modelled from the spec: the variable registry (spec section 4.2,
analysis.rs `Variables`). `names` records (name, is-current-kind) entries in
creation order; `vals` holds the solution values read during `load`. The
ground node is the absent (`none`) slot and reads as zero. -/
structure Variables where
  names : List (String × Bool)
  vals : Nat → ℝ

/-- Read a variable's value; ground (`none`) is zero. -/
def Variables.get (vars : Variables) : Option Nat → ℝ
  | none => 0
  | some i => vars.vals i

/-- The Mos1 solver instance state (mos.rs `Mos1`). The matrix-pointer
table `matps` is kept abstractly as the reservation map. -/
structure Mos1 where
  model : Mos1Model
  intparams : Mos1InternalParams
  params : Mos1InstanceParams
  ports : Mos1Vars (Option Nat)
  op : Mos1OpPoint
  guess : Mos1OpPoint
  matps : Mos1Var → Mos1Var → Option Nat

/-- Bulk-junction charge and capacitance (mos.rs `MosJunction::qc`). The
`cmath` exp and log helpers are not in the provided sources and are
modelled as the mathematical functions. -/
def MosJunction.qc (j : MosJunction) (v : ℝ) (model : Mos1Model) : ℝ × ℝ :=
  if j.czb = 0 ∧ j.czbsw = 0 then (0, 0)
  else if v < j.depletion_threshold then
    let arg := 1 - v / j.bulkpot_t
    let sarg := Real.exp (-model.mj * Real.log arg)
    let sargsw := Real.exp (-model.mjsw * Real.log arg)
    let q := j.bulkpot_t * (j.czb * (1 - arg * sarg) / (1 - model.mj)
      + j.czbsw * (1 - arg * sargsw) / (1 - model.mjsw))
    let c := j.czb * sarg + j.czbsw * sargsw
    (q, c)
  else
    let q := j.f4 + v * (j.f2 + v * j.f3 / 2)
    let c := j.f2 + v * j.f3
    (q, c)

/-- Core of mos.rs `Mos1::op_stamp` (lines 649-893) after the initial
polarity and source/drain swap block: it receives the already-swapped
`vd`, `vs` together with the raw gate and bulk voltages and the `reversed`
flag, and produces the guess operating point and the stamps. The Rust
`tr` variable starts as the default and is assigned field by field; the
source assigns `tr.gs` twice (lines 788 and 801) and never assigns
`tr.gd`, which is transcribed as-is. -/
def Mos1.op_stamp_inner (model : Mos1Model) (intp : Mos1InternalParams) (op : Mos1OpPoint)
    (reversed : Bool) (vd vs vg vb : ℝ) (an : AnalysisInfo) (opts : Options) :
    Mos1OpPoint × Stamps ℝ :=
  let gmin := opts.gmin
  let p := model.p
  let vgs := p * (vg - vs)
  let vgd := p * (vg - vd)
  let vds := p * (vd - vs)
  let vgb := p * (vg - vb)
  let vsb := p * (vs - vb)
  let vdb := p * (vd - vb)
  -- Threshold and body effect
  let von :=
    if 0 < vsb then
      intp.vt0_t + model.gamma * (Real.sqrt (intp.phi_t + vsb) - Real.sqrt intp.phi_t)
    else intp.vt0_t
  let vov := vgs - von
  let vdsat := max vov 0
  -- Drain current and its g-derivatives; default to cutoff values
  let chan : ℝ × ℝ × ℝ × ℝ :=
    if 0 < vov then
      let igg : ℝ × ℝ × ℝ :=
        if vov ≤ vds then
          (intp.beta / 2 * vov ^ 2 * (1 + model.lambda * vds),
           intp.beta * vov * (1 + model.lambda * vds),
           model.lambda * intp.beta / 2 * vov ^ 2)
        else
          (intp.beta * (vov * vds - vds ^ 2 / 2) * (1 + model.lambda * vds),
           intp.beta * vds * (1 + model.lambda * vds),
           intp.beta * ((vov - vds) * (1 + model.lambda * vds)
             + model.lambda * (vov * vds - vds ^ 2 / 2)))
      let gmbs :=
        if 0 < intp.phi_t + vsb then
          igg.2.1 * model.gamma / 2 / Real.sqrt (intp.phi_t + vsb)
        else 0
      (igg.1, igg.2.1, igg.2.2, gmbs)
    else (0, 0, 0, 0)
  let ids := chan.1
  let gm := chan.2.1
  let gds := chan.2.2.1
  let gmbs := chan.2.2.2
  -- Bulk junction diodes
  let vtherm := intp.vtherm
  let bs_junc := if !reversed then intp.source_junc else intp.drain_junc
  let bd_junc := if !reversed then intp.drain_junc else intp.source_junc
  let ibs := bs_junc.isat * (Real.exp (-vsb / vtherm) - 1)
  let gbs := bs_junc.isat / vtherm * Real.exp (-vsb / vtherm) + gmin
  let ibs_rhs := ibs + vsb * gbs
  let ibd := bd_junc.isat * (Real.exp (-vdb / vtherm) - 1)
  let gbd := bd_junc.isat / vtherm * Real.exp (-vdb / vtherm) + gmin
  let ibd_rhs := ibd + vdb * gbd
  -- Capacitance calculations
  let cox := intp.cox
  let cgx : ℝ × ℝ × ℝ :=
    if vov ≤ -intp.phi_t then (0, 0, cox / 2)
    else if vov ≤ -intp.phi_t / 2 then (0, 0, -vov * cox / (2 * intp.phi_t))
    else if vov ≤ 0 then
      (vov * cox / (1.5 * intp.phi_t) + cox / 3, 0, -vov * cox / (2 * intp.phi_t))
    else if vdsat ≤ vds then (cox / 3, 0, 0)
    else
      let vddif := 2 * vdsat - vds
      let vddif1 := vdsat - vds
      let vddif2 := vddif * vddif
      (cox * (1 - vddif1 * vddif1 / vddif2) / 3,
       cox * (1 - vdsat * vdsat / vddif2) / 3, 0)
  let cgs1 := cgx.1
  let cgd1 := cgx.2.1
  let cgb1 := cgx.2.2
  -- Incorporate past history
  let cgs2 :=
    if op.cgs = 0 then cgs1
    else if reversed == op.reversed then op.cgs
    else op.cgd
  let cgs := cgs1 + cgs2 + intp.cgs_ov
  let cgd := cgd1 + intp.cgd_ov + (if reversed == op.reversed then op.cgd else op.cgs)
  let cgb := cgb1 + intp.cgb_ov + op.cgb
  -- Bulk junction caps
  let cbs := (bs_junc.qc (-vsb) model).2
  let cbd := (bd_junc.qc (-vdb) model).2
  -- Transient updates, numerically integrating each cap
  let tr : Mos1TranState :=
    match an with
    | .tran state =>
      let tr0 := Mos1TranState.zero
      let dqgs := if reversed == op.reversed then (vgs - op.vgs) * cgs else (vgs - op.vgd) * cgs
      let ip1 := if reversed == op.reversed then op.tr.gs.i else op.tr.gd.i
      let tr1 := { tr0 with gs := state.integq dqgs cgs vgs ip1 }
      let dqgd := if reversed == op.reversed then (vgd - op.vgd) * cgd else (vgd - op.vgs) * cgd
      let ip2 := if reversed == op.reversed then op.tr.gd.i else op.tr.gs.i
      let tr2 := { tr1 with gs := state.integq dqgd cgd vgd ip2 }
      let dqgb := (vgb - op.vgb) * cgb
      let tr3 := { tr2 with gb := state.integq dqgb cgb vgb op.tr.gb.i }
      let dqbs := if reversed == op.reversed then (-vsb + op.vsb) * cbs else (-vsb + op.vdb) * cbs
      let dqbd := if reversed == op.reversed then (-vdb + op.vdb) * cbd else (-vdb + op.vsb) * cbd
      let isp := if reversed == op.reversed then op.tr.gs.i else op.tr.gd.i
      let idp := if reversed == op.reversed then op.tr.gd.i else op.tr.gs.i
      let tr4 := { tr3 with bs := state.integq dqbs cbs (-vsb) isp }
      { tr4 with bd := state.integq dqbd cbd (-vdb) idp }
    | _ => Mos1TranState.zero
  let irhs := ids - gm * vgs - gds * vds
  -- Reported drain and source roles
  let sr := if !reversed then Mos1Var.SP else Mos1Var.DP
  let sx := if !reversed then Mos1Var.S else Mos1Var.D
  let dr := if !reversed then Mos1Var.DP else Mos1Var.SP
  let dx := if !reversed then Mos1Var.D else Mos1Var.S
  let grd := intp.grd
  let grs := intp.grs
  let stamps : Stamps ℝ :=
    { g := [((dr, dr), gds + grd + gbd + tr.gd.g),
            ((sr, sr), gm + gds + grs + gbs + gmbs + tr.gs.g),
            ((dr, sr), -gm - gds - gmbs),
            ((sr, dr), -gds),
            ((dr, Mos1Var.G), gm - tr.gd.g),
            ((sr, Mos1Var.G), -gm - tr.gs.g),
            ((Mos1Var.G, Mos1Var.G), tr.gd.g + tr.gs.g + tr.gb.g),
            ((Mos1Var.B, Mos1Var.B), gbd + gbs + tr.gb.g),
            ((Mos1Var.G, Mos1Var.B), -tr.gb.g),
            ((Mos1Var.G, dr), -tr.gd.g),
            ((Mos1Var.G, sr), -tr.gs.g),
            ((Mos1Var.B, Mos1Var.G), -tr.gb.g),
            ((Mos1Var.B, dr), -gbd),
            ((Mos1Var.B, sr), -gbs),
            ((dr, Mos1Var.B), -gbd + gmbs),
            ((sr, Mos1Var.B), -gbs - gmbs),
            ((dx, dr), -grd),
            ((dr, dx), -grd),
            ((dx, dx), grd),
            ((sx, sr), -grs),
            ((sr, sx), -grs),
            ((sx, sx), grs)],
      b := [(dr, p * (-irhs + ibd_rhs + tr.gd.rhs)),
            (sr, p * (irhs + ibs_rhs + tr.gs.rhs)),
            (Mos1Var.G, -p * (tr.gs.rhs + tr.gb.rhs + tr.gd.rhs)),
            (Mos1Var.B, -p * (ibd_rhs + ibs_rhs - tr.gb.rhs))] }
  let guess : Mos1OpPoint :=
    { ids := ids
      vgs := vgs
      vds := vds
      vgd := vgd
      vgb := vgb
      vdb := vdb
      vsb := vsb
      gm := gm
      gds := gds
      gmbs := gmbs
      gbs := gbs
      gbd := gbd
      reversed := reversed
      cgs := cgs1
      cgd := cgd1
      cgb := cgb1
      cbs := cbs
      cbd := cbd
      tr := tr }
  (guess, stamps)

/-- mos.rs `Mos1::op_stamp`: factor out polarity and source/drain swapping
(lines 657-667), then run the core computation. -/
def Mos1.op_stamp (m : Mos1) (v : Mos1Vars ℝ) (an : AnalysisInfo) (opts : Options) :
    Mos1OpPoint × Stamps ℝ :=
  let p := m.model.p
  let reversed : Bool := decide (p * (v.d - v.s) < 0)
  let vd := if reversed then v.s else v.d
  let vs := if reversed then v.d else v.s
  Mos1.op_stamp_inner m.model m.intparams m.op reversed vd vs v.g v.b an opts

/-- Gather the voltages on each node variable (mos.rs `Mos1::vs`). -/
def Mos1.vs (m : Mos1) (vars : Variables) : Mos1Vars ℝ :=
  { d := vars.get m.ports.d
    dp := vars.get m.ports.dp
    g := vars.get m.ports.g
    s := vars.get m.ports.s
    sp := vars.get m.ports.sp
    b := vars.get m.ports.b }

/-- mos.rs `Mos1::load`: compute the op point and stamps, store the op
point as the new guess, and return the stamps. Mutation of `self` is
modelled by returning the updated device. -/
def Mos1.load (m : Mos1) (vars : Variables) (an : AnalysisInfo) (opts : Options) :
    Mos1 × Stamps ℝ :=
  let v := m.vs vars
  let os := m.op_stamp v an opts
  ({ m with guess := os.1 }, os.2)

/-- mos.rs `Mos1::commit`: load the last guess as the new operating point. -/
def Mos1.commit (m : Mos1) : Mos1 := { m with op := m.guess }

/-- mos.rs `Mos1::load_ac` (lines 914-968): the AC stamp built around the
accepted operating point `op`. Transcribed entry for entry, including the
repeated `(G, dr)` entry and the computed-but-unused bulk-junction cap
admittances `gcbs` and `gcbd`. The non-AC analysis arm is the Rust panic,
modelled as an error. -/
def Mos1.load_ac (m : Mos1) (an : AnalysisInfo) (_opts : Options) :
    Except String (Stamps ℂ) :=
  let intp := m.intparams
  match an with
  | .ac state =>
    let omega := state.omega
    let gm := m.op.gm
    let gds := m.op.gds
    let gmbs := m.op.gmbs
    let gbs := m.op.gbs
    let gbd := m.op.gbd
    let gcgs := omega * m.op.cgs
    let gcgd := omega * m.op.cgd
    let gcgb := omega * m.op.cgb
    let gcbs := omega * m.op.cbs
    let gcbd := omega * m.op.cbd
    let sr := if !m.op.reversed then Mos1Var.SP else Mos1Var.DP
    let sx := if !m.op.reversed then Mos1Var.S else Mos1Var.D
    let dr := if !m.op.reversed then Mos1Var.DP else Mos1Var.SP
    let dx := if !m.op.reversed then Mos1Var.D else Mos1Var.S
    .ok
      { g := [((dr, dr), ⟨gds + intp.grd + gbd, gcgd⟩),
              ((sr, sr), ⟨gm + gds + intp.grs + gbs + gmbs, gcgs⟩),
              ((dr, sr), ⟨-gm - gds - gmbs, 0⟩),
              ((sr, dr), ⟨-gds, 0⟩),
              ((dr, Mos1Var.G), ⟨gm, -gcgd⟩),
              ((sr, Mos1Var.G), ⟨-gm, -gcgs⟩),
              ((Mos1Var.G, Mos1Var.G), ⟨0, gcgd + gcgs + gcgb⟩),
              ((Mos1Var.B, Mos1Var.B), ⟨gbd + gbs, gcgb⟩),
              ((Mos1Var.G, Mos1Var.B), ⟨0, -gcgb⟩),
              ((Mos1Var.G, dr), ⟨0, -gcgd⟩),
              ((Mos1Var.G, sr), ⟨0, -gcgs⟩),
              ((Mos1Var.B, Mos1Var.G), ⟨0, -gcgb⟩),
              ((Mos1Var.G, dr), ⟨0, -gcgd⟩),
              ((Mos1Var.B, dr), ⟨-gbd, 0⟩),
              ((Mos1Var.B, sr), ⟨-gbs, 0⟩),
              ((dr, Mos1Var.B), ⟨-gbd + gmbs, 0⟩),
              ((sr, Mos1Var.B), ⟨-gbs - gmbs, 0⟩),
              ((dx, dr), ⟨-intp.grd, 0⟩),
              ((dr, dx), ⟨-intp.grd, 0⟩),
              ((dx, dx), ⟨intp.grd, 0⟩),
              ((sx, sr), ⟨-intp.grs, 0⟩),
              ((sr, sx), ⟨-intp.grs, 0⟩),
              ((sx, sx), ⟨intp.grs, 0⟩)],
        b := [] }
  | _ => .error "Invalid AC AnalysisInfo"

/-- Role exchange on node labels: drain-like and source-like slots swap,
gate and bulk stay fixed. Claim apparatus for C5. -/
def roleSwap : Mos1Var → Mos1Var
  | .D => .S
  | .S => .D
  | .DP => .SP
  | .SP => .DP
  | .G => .G
  | .B => .B

/-- Exchange the drain and source (and their primes) in a terminal-voltage
assignment. Claim apparatus for C5. -/
def swapDS (v : Mos1Vars ℝ) : Mos1Vars ℝ :=
  { v with d := v.s, s := v.d, dp := v.sp, sp := v.dp }

/-- Mirror an operating-point history to the swapped-terminal trajectory:
only the `reversed` flag flips. Claim apparatus for C5. -/
def mirrorOp (o : Mos1OpPoint) : Mos1OpPoint := { o with reversed := !o.reversed }

/-- Role exchange on a conductance-stamp entry. Claim apparatus for C5. -/
def mapG (e : (Mos1Var × Mos1Var) × ℝ) : (Mos1Var × Mos1Var) × ℝ :=
  ((roleSwap e.1.1, roleSwap e.1.2), e.2)

/-- Role exchange on a right-hand-side entry. Claim apparatus for C5. -/
def mapB (e : Mos1Var × ℝ) : Mos1Var × ℝ := (roleSwap e.1, e.2)

/-- A concrete Mos1 model used for evaluating the derivation at explicit
inputs: kp = 8, tnom = 300 K, ld = 0, all optional resistances absent. -/
def mC1 : Mos1Model where
  mos_type := .NMOS
  vt0 := 0
  kp := 8
  gamma := 0
  cox_per_area := 0
  phi := 0.6
  lambda := 0
  cbd := 0
  cbs := 0
  is := 1e-14
  pb := 0.8
  cgso := 0
  cgdo := 0
  cgbo := 0
  cj := 0
  mj := 0.5
  cjsw := 0
  mjsw := 0.5
  js := 0
  tox := 1e-7
  ld := 0
  fc := 0.5
  tnom := 300
  kf := 0
  af := 1
  rd := none
  rs := none
  rsh := none

/-- A concrete Mos1 instance with unit geometry and no temperature override. -/
def iC1 : Mos1InstanceParams where
  m := 0
  l := 1
  w := 1
  a_d := 1e-12
  a_s := 1e-12
  pd := 1e-6
  ps := 1e-6
  nrd := 1
  nrs := 1
  temp := none

/-- Options with device temperature 1200 K, four times the model nominal 300 K. -/
def oC1 : Options where
  temp := 1200
  gmin := 0

/-- Model for the C8 boundary check: ld = 1 so that an instance length of 2
yields effective length exactly zero. -/
def mC8 : Mos1Model := { mC1 with ld := 1 }

/-- Instance for the C8 boundary check: l = 2, so leff = 2 - 2 * 1 = 0. -/
def iC8 : Mos1InstanceParams := { iC1 with l := 2 }

/-- A junction with zero capacitance coefficients and unit saturation
current, for concrete evaluations. -/
def jEx : MosJunction :=
  { area := 0, isat := 1, depletion_threshold := 0, bulkpot_t := 1, vcrit := 0,
    czb := 0, czbsw := 0, f2 := 0, f3 := 0, f4 := 0, sd := .S }

/-- Concrete internal parameters with unit thermal voltage and symmetric
source/drain junctions. -/
def intpEx : Mos1InternalParams :=
  { temp := 300, vtherm := 1, vt0_t := 1, kp_t := 1, phi_t := 1, beta := 1,
    cox := 0, cgs_ov := 0, cgd_ov := 0, cgb_ov := 0, leff := 1,
    drain_junc := jEx, source_junc := jEx, grd := 0, grs := 0 }

/-- The all-zero operating point (Rust derived default). -/
def opZero : Mos1OpPoint :=
  { ids := 0, vgs := 0, vds := 0, vgd := 0, vgb := 0, vdb := 0, vsb := 0,
    gm := 0, gds := 0, gmbs := 0, gbs := 0, gbd := 0,
    cgs := 0, cgd := 0, cgb := 0, cbs := 0, cbd := 0,
    reversed := false, tr := .zero }

/-- Ports left unconnected (all ground). -/
def portsNone : Mos1Vars (Option Nat) := ⟨none, none, none, none, none, none⟩

/-- A concrete symmetric device: equal source and drain junctions. -/
def mSym : Mos1 :=
  { model := mC1, intparams := intpEx, params := iC1, ports := portsNone,
    op := opZero, guess := opZero, matps := fun _ _ => none }

/-- A concrete asymmetric device: the drain junction has twice the
saturation current of the source junction. -/
def mAsym : Mos1 :=
  { mSym with intparams := { intpEx with drain_junc := { jEx with isat := 2 } } }

/-- Terminal assignment with drain at 1 V, bulk at 1 V, gate and source
grounded. -/
def v5 : Mos1Vars ℝ := ⟨1, 0, 0, 0, 0, 1⟩

/-- All-zero terminal assignment. -/
def vZero : Mos1Vars ℝ := ⟨0, 0, 0, 0, 0, 0⟩

/-- Options at 300 K with zero gmin, for concrete evaluations. -/
def opts0 : Options := ⟨300, 0⟩

/-- Follows the spec's words (section 4.7, steps 3 and 4): the region
equations an operating point must satisfy. With the body-effect-adjusted
threshold V_on and overdrive V_ov = V_gs - V_on: in cut-off (V_ov nonpositive)
the current and all conductances vanish; in saturation (V_ds at least V_ov)
I_ds = beta/2 V_ov^2 (1 + lambda V_ds), g_m = beta V_ov (1 + lambda V_ds),
g_ds = lambda beta/2 V_ov^2; in triode I_ds = beta (V_ov V_ds - V_ds^2/2)
(1 + lambda V_ds) with g_m and g_ds its partial derivatives in V_gs and
V_ds by the chain rule. -/
def specRegionEquations (model : Mos1Model) (intp : Mos1InternalParams)
    (G : Mos1OpPoint) : Prop :=
  let von :=
    if 0 < G.vsb then
      intp.vt0_t + model.gamma * (Real.sqrt (intp.phi_t + G.vsb) - Real.sqrt intp.phi_t)
    else intp.vt0_t
  let vov := G.vgs - von
  (G.ids = if 0 < vov then
      (if vov ≤ G.vds then intp.beta / 2 * vov ^ 2 * (1 + model.lambda * G.vds)
       else intp.beta * (vov * G.vds - G.vds ^ 2 / 2) * (1 + model.lambda * G.vds))
    else 0)
  ∧ (G.gm = if 0 < vov then
      (if vov ≤ G.vds then intp.beta * vov * (1 + model.lambda * G.vds)
       else intp.beta * G.vds * (1 + model.lambda * G.vds))
    else 0)
  ∧ (G.gds = if 0 < vov then
      (if vov ≤ G.vds then model.lambda * intp.beta / 2 * vov ^ 2
       else intp.beta * ((vov - G.vds) * (1 + model.lambda * G.vds)
         + model.lambda * (vov * G.vds - G.vds ^ 2 / 2)))
    else 0)
  ∧ (G.gmbs = if 0 < vov then
      (if 0 < intp.phi_t + G.vsb then G.gm * model.gamma / 2 / Real.sqrt (intp.phi_t + G.vsb)
       else 0)
    else 0)
  ∧ HasDerivAt
      (fun x => intp.beta * ((x - von) * G.vds - G.vds ^ 2 / 2) * (1 + model.lambda * G.vds))
      (intp.beta * G.vds * (1 + model.lambda * G.vds)) G.vgs
  ∧ HasDerivAt
      (fun y => intp.beta * (vov * y - y ^ 2 / 2) * (1 + model.lambda * y))
      (intp.beta * ((vov - G.vds) * (1 + model.lambda * G.vds)
        + model.lambda * (vov * G.vds - G.vds ^ 2 / 2))) G.vds

/-- Follows the spec's words (section 4.7, steps 3 and 4): the threshold is
body-effect adjusted, V_on = V_T0(T) + gamma (sqrt(phi_T + V_sb) -
sqrt(phi_T)) when V_sb is positive and V_on = V_T0(T) otherwise; when
conducting, g_mbs = g_m gamma / (2 sqrt(phi_T + V_sb)) when phi_T + V_sb is
positive and 0 otherwise; below the threshold nothing conducts. -/
def specBodyEffect (model : Mos1Model) (intp : Mos1InternalParams)
    (G : Mos1OpPoint) : Prop :=
  let von :=
    if 0 < G.vsb then
      intp.vt0_t + model.gamma * (Real.sqrt (intp.phi_t + G.vsb) - Real.sqrt intp.phi_t)
    else intp.vt0_t
  (G.gmbs = if 0 < G.vgs - von then
      (if 0 < intp.phi_t + G.vsb then G.gm * model.gamma / 2 / Real.sqrt (intp.phi_t + G.vsb)
       else 0)
    else 0)
  ∧ (G.vgs - von ≤ 0 → G.ids = 0 ∧ G.gm = 0 ∧ G.gds = 0 ∧ G.gmbs = 0)

end

/-! The hierarchy elaborator, src/spice21/src/elab.rs. -/

/-- Node references in a netlist (circuit.rs `NodeRef`; that file is not in
the provided sources, but elab.rs matches exactly these three variants:
named node, numbered node, and ground). -/
inductive NodeRef where
  | name (str : String)
  | num (n : Nat)
  | gnd
deriving DecidableEq

/-- elab.rs `s`: the string form of a node reference; ground is empty. -/
def s : NodeRef → String
  | .name str => str
  | .num n => toString n
  | .gnd => ""

/-- A module instance (circuit.rs `ModuleI`): instance name, module name,
and the port connection map from formal port name to actual signal name.
Parameters are untouched by elab.rs (a FIXME there) and are omitted. -/
structure ModuleI where
  name : String
  module : String
  ports : List (String × String)

/-- A component instance as matched by elab.rs `elaborate_instance`.
Primitive payloads that elab.rs only forwards to the solvers (component
values, resolved models) are reduced to what the elaborator itself
inspects: terminal node references, the diode model's has-rs flag, and the
names used for variable creation and model dispatch. -/
inductive Comp where
  | r (p n : NodeRef)
  | c (p n : NodeRef)
  | i (p n : NodeRef)
  | d (dname : String) (hasRs : Bool) (p n : NodeRef)
  | v (vname : String) (p n : NodeRef)
  | mos (mname mmodel mparams : String) (dN gN sN bN : NodeRef)
  | module (m : ModuleI)

/-- A module definition (circuit.rs `ModuleDef`): internal signal names and
component instances; the `Option` mirrors the proto-encoded `inst.comp`
that elab.rs unwraps (panicking on a missing payload). -/
structure ModuleDef where
  name : String
  signals : List String
  comps : List (Option Comp)

/-- The definitions depot carried by the elaborator (circuit.rs `Defs`):
module definitions plus the model- and instance-parameter name sets
consulted by the Mos dispatch in elab.rs. -/
structure Defs where
  modules : List (String × ModuleDef)
  bsim4Models : List String
  mos1Models : List String
  mos1Insts : List String
  mos0Models : List String

/-- Modelled from the spec: registry insertion `add_v` (spec section 4.2;
analysis.rs is not in the provided sources): append a voltage variable and
return its index. -/
def Variables.addv (vars : Variables) (nm : String) : Nat × Variables :=
  (vars.names.length, { vars with names := vars.names ++ [(nm, false)] })

/-- Modelled from the spec: registry insertion `add_i` (spec section 4.2),
appending a branch-current variable. -/
def Variables.addi (vars : Variables) (nm : String) : Nat × Variables :=
  (vars.names.length, { vars with names := vars.names ++ [(nm, true)] })

/-- Modelled from the spec: `find_or_create` (spec section 4.2) returns and
memoizes the variable for a named node; ground returns `none`. -/
def Variables.find_or_create (vars : Variables) (node : NodeRef) : Option Nat × Variables :=
  match node with
  | .gnd => (none, vars)
  | nd =>
    let nm := s nd
    match vars.names.findIdx? (fun en => en.1 == nm) with
    | some idx => (some idx, vars)
    | none =>
      let av := vars.addv nm
      (some av.1, av.2)

/-- The elaborator state (elab.rs `Elaborator`): the flattened component
solvers (abstracted to a count, since the `ComponentSolver` types live
outside the provided sources), the variable registry, the retained
definitions, and the hierarchical path. -/
structure Elaborator where
  comps : Nat
  vars : Variables
  defs : Defs
  path : List String

/-- The namespace map from local signal names to variable slots
(elab.rs `ns : HashMap<String, Option<VarIndex>>`), as an association list
whose leftmost binding wins. -/
abbrev NS := List (String × Option Nat)

/-- Namespace lookup (HashMap `get`). -/
def nsGet (ns : NS) (k : String) : Option (Option Nat) := ns.lookup k

/-- Namespace insertion (HashMap `insert`); the new binding shadows. -/
def nsInsert (ns : NS) (k : String) (v : Option Nat) : NS := (k, v) :: ns

/-- Elaboration failures. Rust panics carry strings; the embedding
distinguishes the hierarchy-depth abort, and adds `outOfFuel` as the
escape hatch of the explicit recursion bound (proved unreachable below). -/
inductive ElabErr where
  | tooDeep
  | outOfFuel
  | other (msg : String)
deriving DecidableEq

/-- elab.rs `Elaborator::node_var`: with autonode, ground maps to `none`
and any other node is found or created under the current hierarchical
path, which is pushed and popped around the creation; without autonode the
node must already be bound in the namespace (the Rust `unwrap` panic
becomes an error). -/
def node_var (e : Elaborator) (ns : NS) (node : NodeRef) (autonode : Bool) :
    Except ElabErr (Option Nat × Elaborator × NS) :=
  if autonode then
    match node with
    | .gnd => .ok (none, e, ns)
    | nd =>
      let e1 := { e with path := e.path ++ [s nd] }
      let pathname := String.intercalate "." e1.path
      let fc := e1.vars.find_or_create (.name pathname)
      let ns1 := nsInsert ns (s nd) fc.1
      let e2 := { e1 with vars := fc.2, path := e1.path.dropLast }
      .ok (fc.1, e2, ns1)
  else
    match nsGet ns (s node) with
    | some var => .ok (var, e, ns)
    | none => .error (.other "node not in namespace")

/-- elab.rs `Elaborator::elaborate_signal`: create a variable at the
current path joined with the signal name and bind the signal; the path is
pushed and popped around the creation. -/
def elaborate_signal (e : Elaborator) (ns : NS) (signame : String) : Elaborator × NS :=
  let e1 := { e with path := e.path ++ [signame] }
  let pathname := String.intercalate "." e1.path
  let av := e1.vars.addv pathname
  let ns1 := nsInsert ns signame (some av.1)
  ({ e1 with vars := av.2, path := e1.path.dropLast }, ns1)

/-- The signal loop at the head of elab.rs `elaborate_module`. -/
def elaborate_signals (e : Elaborator) (ns : NS) : List String → Elaborator × NS
  | [] => (e, ns)
  | sg :: rest =>
    let r := elaborate_signal e ns sg
    elaborate_signals r.1 r.2 rest

/-- The port-connection loop of elab.rs `elaborate_module_inst`: each
actual signal must already be a variable in the enclosing namespace (the
Rust `unwrap`); the bindings seed the module-innards namespace. -/
def build_inst_ns (ns : NS) : List (String × String) → Option NS
  | [] => some []
  | (k, v) :: rest =>
    match nsGet ns v with
    | some var =>
      match build_inst_ns ns rest with
      | some tail => some (nsInsert tail k var)
      | none => none
    | none => none

mutual

/-- elab.rs `Elaborator::elaborate_instance`: dispatch on the component
variant; primitives resolve their terminals through `node_var` and push
one solver; module instances recurse. The Mos arm mirrors the three-way model
dispatch including its two panics (undefined parameters, undefined model);
BSIM4 solver construction itself lives outside the provided sources and is
abstracted to pushing one solver. `fuel` bounds only the module-instance
nesting depth and is threaded unchanged here. -/
def elaborate_instance (fuel : Nat) (e : Elaborator) (ns : NS) (inst : Comp)
    (autonode : Bool) : Except ElabErr (Elaborator × NS) :=
  match inst with
  | .r p n => do
    let (_, e1, ns1) ← node_var e ns p autonode
    let (_, e2, ns2) ← node_var e1 ns1 n autonode
    .ok ({ e2 with comps := e2.comps + 1 }, ns2)
  | .c p n => do
    let (_, e1, ns1) ← node_var e ns p autonode
    let (_, e2, ns2) ← node_var e1 ns1 n autonode
    .ok ({ e2 with comps := e2.comps + 1 }, ns2)
  | .i p n => do
    let (_, e1, ns1) ← node_var e ns p autonode
    let (_, e2, ns2) ← node_var e1 ns1 n autonode
    .ok ({ e2 with comps := e2.comps + 1 }, ns2)
  | .d dname hasRs p n => do
    let (_, e1, ns1) ← node_var e ns p autonode
    let (_, e2, ns2) ← node_var e1 ns1 n autonode
    if hasRs then
      let e3 := { e2 with path := e2.path ++ [dname] ++ ["r"] }
      let av := e3.vars.addv dname
      let e4 := { e3 with vars := av.2, path := e3.path.dropLast.dropLast }
      .ok ({ e4 with comps := e4.comps + 1 }, ns2)
    else
      .ok ({ e2 with comps := e2.comps + 1 }, ns2)
  | .v vname p n => do
    let ai := e.vars.addi vname
    let e0 := { e with vars := ai.2 }
    let (_, e1, ns1) ← node_var e0 ns p autonode
    let (_, e2, ns2) ← node_var e1 ns1 n autonode
    .ok ({ e2 with comps := e2.comps + 1 }, ns2)
  | .mos _mname mmodel mparams dN gN sN bN => do
    let (_, e1, ns1) ← node_var e ns dN autonode
    let (_, e2, ns2) ← node_var e1 ns1 gN autonode
    let (_, e3, ns3) ← node_var e2 ns2 sN autonode
    let (_, e4, ns4) ← node_var e3 ns3 bN autonode
    if e4.defs.bsim4Models.contains mmodel then
      .ok ({ e4 with comps := e4.comps + 1 }, ns4)
    else if e4.defs.mos1Models.contains mmodel then
      if e4.defs.mos1Insts.contains mparams then
        .ok ({ e4 with comps := e4.comps + 1 }, ns4)
      else .error (.other "Parameters not defined")
    else if e4.defs.mos0Models.contains mmodel then
      .ok ({ e4 with comps := e4.comps + 1 }, ns4)
    else .error (.other "Model not defined")
  | .module mi => elaborate_module_inst fuel e ns mi
termination_by (fuel, sizeOf inst)

/-- elab.rs `Elaborator::elaborate_module_inst` (lines 161-186): look up
the module definition, seed the instance namespace from the port map, push
the instance name onto the path, abort when the path exceeds 1024 levels,
elaborate the module body, and pop the path. The `fuel` counter decreases
exactly at this nesting step; `outOfFuel` is proved unreachable whenever
the fuel exceeds the remaining depth allowance. -/
def elaborate_module_inst (fuel : Nat) (e : Elaborator) (ns : NS) (mi : ModuleI) :
    Except ElabErr (Elaborator × NS) :=
  match e.defs.modules.lookup mi.module with
  | none => .error (.other "ModuleDef not found")
  | some mdef =>
    match build_inst_ns ns mi.ports with
    | none => .error (.other "port signal not in namespace")
    | some inst_ns =>
      let e1 := { e with path := e.path ++ [mi.name] }
      if 1024 < e1.path.length then .error .tooDeep
      else
        match fuel with
        | 0 => .error .outOfFuel
        | fuel' + 1 => do
          let (e2, _) ← elaborate_module fuel' e1 inst_ns mdef
          .ok ({ e2 with path := e2.path.dropLast }, ns)
termination_by (fuel, sizeOf mi)

/-- elab.rs `Elaborator::elaborate_module`: create the internal signals,
then elaborate every component instance (with autonode off); a missing
component payload is the Rust `Invalid Comp` panic. -/
def elaborate_module (fuel : Nat) (e : Elaborator) (ns : NS) :
    ModuleDef → Except ElabErr (Elaborator × NS)
  | .mk _nm signals comps =>
    let r := elaborate_signals e ns signals
    elaborate_insts fuel r.1 r.2 comps
termination_by mdef => (fuel, sizeOf mdef)

/-- The component loop of elab.rs `elaborate_module`. -/
def elaborate_insts (fuel : Nat) (e : Elaborator) (ns : NS) :
    List (Option Comp) → Except ElabErr (Elaborator × NS)
  | [] => .ok (e, ns)
  | none :: _ => .error (.other "Invalid Comp")
  | some cx :: rest => do
    let (e1, ns1) ← elaborate_instance fuel e ns cx false
    elaborate_insts fuel e1 ns1 rest
termination_by l => (fuel, sizeOf l)

end

/-- The property C10 needs of every elaborator call: the explicit recursion
bound is never the reported failure, and a successful call restores the
hierarchical path to its entry value. -/
abbrev PathOk (r : Except ElabErr (Elaborator × NS)) (p0 : List String) : Prop :=
  r ≠ .error .outOfFuel ∧ ∀ e2 ns2, r = .ok (e2, ns2) → e2.path = p0

/-- An elaborator whose hierarchical path already has 1024 segments. -/
def e1024 : Elaborator :=
  { comps := 0
    vars := { names := [], vals := fun _ => 0 }
    defs := { modules := [], bsim4Models := [], mos1Models := [], mos1Insts := [],
              mos0Models := [] }
    path := List.replicate 1024 "x" }

/-- A module instance of an (undefined) module named m, with no ports. -/
def mi0 : ModuleI := { name := "m", module := "m", ports := [] }

/-- Claim C1: the spec states the temperature-shifted transconductance is
KP(T) = KP(T_nom) times (T over T_nom) to the power -3/2, and beta =
KP(T) times W over L_eff. Evaluating `Mos1InternalParams.derive` at
temp ratio 4 and KP = 8: the code produces kp_t = 8 / 4 * sqrt 4 = 4,
while the spec formula KP / (r * sqrt r) gives 8 / (4 * 2) = 1, so the
code disagrees with the claimed -3/2 power law (the code implements the
power -1/2); the beta formula itself holds at this input. -/
theorem claim_c1_kp_temperature :
    ∃ p, Mos1InternalParams.derive mC1 iC1 oC1 = .ok p
      ∧ p.kp_t = 4
      ∧ mC1.kp / ((oC1.temp / mC1.tnom) * Real.sqrt (oC1.temp / mC1.tnom)) = 1
      ∧ p.kp_t ≠ mC1.kp / ((oC1.temp / mC1.tnom) * Real.sqrt (oC1.temp / mC1.tnom))
      ∧ p.beta = p.kp_t * iC1.w / (iC1.l - 2 * mC1.ld) := by
  have hs : Real.sqrt ((1200 : ℝ) / 300) = 2 := by
    rw [show ((1200 : ℝ) / 300) = 2 ^ 2 by norm_num,
      Real.sqrt_sq (by norm_num : (0 : ℝ) ≤ 2)]
  have hr : ((1200 : ℝ) / 300) = 4 := by norm_num
  have hleff : ¬(iC1.l - 2 * mC1.ld < (0 : ℝ)) := by norm_num [iC1, mC1]
  rw [Mos1InternalParams.derive]
  simp only [iC1, mC1, oC1]
  rw [if_neg (by norm_num : ¬((1 : ℝ) - 2 * 0 < 0))]
  refine ⟨_, rfl, ?_, ?_, ?_, ?_⟩
  · show (8 : ℝ) / ((1200 : ℝ) / 300) * Real.sqrt ((1200 : ℝ) / 300) = 4
    rw [hs, hr]; norm_num
  · show (8 : ℝ) / (((1200 : ℝ) / 300) * Real.sqrt ((1200 : ℝ) / 300)) = 1
    rw [hs, hr]; norm_num
  · show (8 : ℝ) / ((1200 : ℝ) / 300) * Real.sqrt ((1200 : ℝ) / 300)
      ≠ (8 : ℝ) / (((1200 : ℝ) / 300) * Real.sqrt ((1200 : ℝ) / 300))
    rw [hs, hr]; norm_num
  · rfl

/-- Claim C8, counterexample: the claim says derivation aborts for every
input with L_eff = L - 2 Ld less than or equal to 0, but at L_eff exactly 0
(l = 2, ld = 1) the code's strict check `leff < 0.0` does not fire and
derivation succeeds. -/
theorem claim_c8_counterexample :
    iC8.l - 2 * mC8.ld = 0
      ∧ ∃ p, Mos1InternalParams.derive mC8 iC8 oC1 = .ok p := by
  refine ⟨by norm_num [iC8, mC8, iC1, mC1], ?_⟩
  rw [Mos1InternalParams.derive]
  simp only [iC8, mC8, iC1, mC1, oC1]
  rw [if_neg (by norm_num : ¬((2 : ℝ) - 2 * 1 < 0))]
  exact ⟨_, rfl⟩

/-- Claim C8, amended: for instances without the (unsupported) temperature
override, internal-parameter derivation aborts exactly when the effective
length L_eff = L - 2 Ld is strictly negative; in particular it never aborts
when L_eff is nonnegative, including the boundary L_eff = 0. -/
theorem claim_c8_amended (model : Mos1Model) (inst : Mos1InstanceParams) (opts : Options)
    (h : inst.temp = none) :
    (∃ e, Mos1InternalParams.derive model inst opts = .error e)
      ↔ inst.l - 2 * model.ld < 0 := by
  rw [Mos1InternalParams.derive, h]
  constructor
  · rintro ⟨e, he⟩
    by_contra hc
    rw [if_neg hc] at he
    exact Except.noConfusion he
  · intro hl
    exact ⟨_, by rw [if_pos hl]⟩

/-- Claim C8, witness for the amended theorem at the concrete boundary
device: the instance has no temperature override, and derivation does not
abort because its effective length (zero) is not negative. -/
theorem claim_c8_witness :
    iC8.temp = none
      ∧ ((∃ e, Mos1InternalParams.derive mC8 iC8 oC1 = .error e)
          ↔ iC8.l - 2 * mC8.ld < 0) :=
  ⟨rfl, claim_c8_amended mC8 iC8 oC1 rfl⟩

/-- Helper: when the polarity-corrected drain-source voltage is not
negative, `op_stamp` runs the core with `reversed` false and the raw
drain/source order. -/
theorem op_stamp_not_reversed (m : Mos1) (v : Mos1Vars ℝ) (an : AnalysisInfo) (opts : Options)
    (h : ¬(m.model.p * (v.d - v.s) < 0)) :
    m.op_stamp v an opts
      = Mos1.op_stamp_inner m.model m.intparams m.op false v.d v.s v.g v.b an opts := by
  simp only [Mos1.op_stamp, decide_eq_false h, Bool.false_eq_true, if_false]

/-- Helper: when the polarity-corrected drain-source voltage is negative,
`op_stamp` runs the core with `reversed` true and drain and source
exchanged. -/
theorem op_stamp_reversed (m : Mos1) (v : Mos1Vars ℝ) (an : AnalysisInfo) (opts : Options)
    (h : m.model.p * (v.d - v.s) < 0) :
    m.op_stamp v an opts
      = Mos1.op_stamp_inner m.model m.intparams m.op true v.s v.d v.g v.b an opts := by
  simp only [Mos1.op_stamp, decide_eq_true h, if_true]

/-- Helper: derivative of the triode current in the gate-source voltage. -/
theorem hasDerivAt_triode_vgs (beta lam von vds x : ℝ) :
    HasDerivAt (fun t => beta * ((t - von) * vds - vds ^ 2 / 2) * (1 + lam * vds))
      (beta * vds * (1 + lam * vds)) x := by
  have h1 : HasDerivAt (fun t : ℝ => t - von) 1 x := (hasDerivAt_id x).sub_const von
  have h2 := ((h1.mul_const vds).sub_const (vds ^ 2 / 2)).const_mul beta
  have h3 := h2.mul_const (1 + lam * vds)
  convert h3 using 1
  ring

/-- Helper: derivative of the triode current in the drain-source voltage. -/
theorem hasDerivAt_triode_vds (beta lam vov y : ℝ) :
    HasDerivAt (fun t => beta * (vov * t - t ^ 2 / 2) * (1 + lam * t))
      (beta * ((vov - y) * (1 + lam * y) + lam * (vov * y - y ^ 2 / 2))) y := by
  have ha : HasDerivAt (fun t : ℝ => vov * t) (vov * 1) y := (hasDerivAt_id y).const_mul vov
  have hb : HasDerivAt (fun t : ℝ => t ^ 2 / 2) (2 * y ^ 1 / 2) y :=
    (hasDerivAt_pow 2 y).div_const 2
  have hu := (ha.sub hb).const_mul beta
  have hw : HasDerivAt (fun t : ℝ => 1 + lam * t) (lam * 1) y :=
    ((hasDerivAt_id y).const_mul lam).const_add 1
  have hm := hu.mul hw
  convert hm using 1
  ring

/-- Claim C2: the spec says that in TRAN mode `integq` is called for each of
the five capacitances and each result is incorporated into the stamp. In the
code the gate-drain integration result is assigned to `tr.gs` (mos.rs line
801), overwriting the gate-source result, and `tr.gd` is never assigned: in
every transient evaluation the gate-drain slot of the integration state
stays at its all-zero default, for every integration function whatsoever,
so the C_gs contribution is dropped and the C_gd contribution is applied to
the source-side stamp slots. -/
theorem claim_c2_tran_integq_dropped (m : Mos1) (v : Mos1Vars ℝ) (ts : TranState)
    (opts : Options) :
    (m.op_stamp v (.tran ts) opts).1.tr.gd = ChargeInteg.zero := rfl

/-- Claim C3: every Mos1 load evaluation satisfies the spec's region
equations: cut-off zeroes, the saturation formulas, the triode formula, and
the chain-rule derivatives in V_gs and V_ds. -/
theorem claim_c3_region_equations (m : Mos1) (v : Mos1Vars ℝ) (an : AnalysisInfo)
    (opts : Options) :
    specRegionEquations m.model m.intparams (m.op_stamp v an opts).1 := by
  simp only [specRegionEquations]
  refine ⟨?_, ?_, ?_, ?_, hasDerivAt_triode_vgs _ _ _ _ _, hasDerivAt_triode_vds _ _ _ _⟩ <;>
    · dsimp only [Mos1.op_stamp, Mos1.op_stamp_inner]
      split_ifs <;> rfl

/-- Claim C6: every Mos1 load evaluation uses the body-effect-adjusted
threshold and the spec's g_mbs formula. -/
theorem claim_c6_body_effect (m : Mos1) (v : Mos1Vars ℝ) (an : AnalysisInfo)
    (opts : Options) :
    specBodyEffect m.model m.intparams (m.op_stamp v an opts).1 := by
  simp only [specBodyEffect]
  constructor
  · dsimp only [Mos1.op_stamp, Mos1.op_stamp_inner]
    split_ifs <;> rfl
  · intro h
    refine ⟨?_, ?_, ?_, ?_⟩ <;>
      · dsimp only [Mos1.op_stamp, Mos1.op_stamp_inner] at h ⊢
        rw [if_neg (not_lt.mpr h)]

/-- Claim C6, witness: a concrete cut-off evaluation (all terminals at zero,
threshold 1): the non-conduction hypothesis holds and all channel outputs
vanish. -/
theorem claim_c6_witness :
    ((mSym.op_stamp vZero .dcop opts0).1.vgs -
        (if 0 < (mSym.op_stamp vZero .dcop opts0).1.vsb then
          mSym.intparams.vt0_t + mSym.model.gamma *
            (Real.sqrt (mSym.intparams.phi_t + (mSym.op_stamp vZero .dcop opts0).1.vsb)
              - Real.sqrt mSym.intparams.phi_t)
        else mSym.intparams.vt0_t) ≤ 0)
      ∧ (mSym.op_stamp vZero .dcop opts0).1.ids = 0 := by
  have hnr : ¬(mSym.model.p * (vZero.d - vZero.s) < 0) := by
    norm_num [mSym, mC1, Mos1Model.p, MosType.p, vZero]
  have h := (claim_c6_body_effect mSym vZero .dcop opts0).2
  have hcut : (mSym.op_stamp vZero .dcop opts0).1.vgs -
      (if 0 < (mSym.op_stamp vZero .dcop opts0).1.vsb then
        mSym.intparams.vt0_t + mSym.model.gamma *
          (Real.sqrt (mSym.intparams.phi_t + (mSym.op_stamp vZero .dcop opts0).1.vsb)
            - Real.sqrt mSym.intparams.phi_t)
      else mSym.intparams.vt0_t) ≤ 0 := by
    rw [op_stamp_not_reversed mSym vZero .dcop opts0 hnr]
    dsimp only [Mos1.op_stamp_inner]
    norm_num [mSym, mC1, intpEx, Mos1Model.p, MosType.p, vZero]
  simp only [specBodyEffect] at h
  exact ⟨hcut, (h hcut).1⟩

/-- Claim C7: calling `load` twice with the same variables produces the same
stamps: the guess written by the first call is not read by `op_stamp`, which
depends only on the model, internal parameters, accepted op point, and
ports. -/
theorem claim_c7_load_idempotent (m : Mos1) (vars : Variables) (an : AnalysisInfo)
    (opts : Options) :
    (((m.load vars an opts).1).load vars an opts).2 = (m.load vars an opts).2 := rfl

/-- Claim C9: `commit` promotes the guess to the accepted operating point
and leaves the guess, model, internal parameters, instance parameters,
ports, and matrix pointers unchanged. -/
theorem claim_c9_commit_frame (m : Mos1) :
    m.commit.op = m.guess ∧ m.commit.guess = m.guess ∧ m.commit.model = m.model
      ∧ m.commit.intparams = m.intparams ∧ m.commit.params = m.params
      ∧ m.commit.ports = m.ports ∧ m.commit.matps = m.matps :=
  ⟨rfl, rfl, rfl, rfl, rfl, rfl, rfl⟩

/-- Claim C4: the spec says the AC stamp is the DC small-signal stamp plus
j omega times the capacitance matrix including the bulk-junction
capacitances C_bs and C_bd, with each slot stamped exactly once. In the
code the bulk-junction cap admittances are computed but never stamped (the
returned stamps are identical for arbitrary values of op.cbs and op.cbd),
and the (G, drain-prime) slot is stamped twice in a single `load_ac` call. -/
theorem claim_c4_load_ac_stamps :
    (∀ (m : Mos1) (x y : ℝ) (an : AnalysisInfo) (opts : Options),
      Mos1.load_ac { m with op := { m.op with cbs := x, cbd := y } } an opts
        = Mos1.load_ac m an opts)
    ∧ (∃ s, Mos1.load_ac mSym (.ac ⟨1⟩) opts0 = .ok s
        ∧ s.g.countP (fun e => decide (e.1 = (Mos1Var.G, Mos1Var.DP))) = 2) := by
  constructor
  · intro m x y an opts
    cases an <;> rfl
  · refine ⟨_, rfl, ?_⟩
    simp [Mos1.load_ac, mSym, opZero, List.countP_cons]

set_option maxHeartbeats 1000000 in
/-- Helper for C5: running the core with the opposite `reversed` flag, the
same already-swapped voltages, and the history mirrored (its `reversed`
flag flipped) yields the same operating point up to the stored flag and
the role-exchanged stamps, provided the source and drain junction
parameters coincide. -/
theorem op_stamp_inner_swap (model : Mos1Model) (intp : Mos1InternalParams)
    (op : Mos1OpPoint) (rev : Bool) (vd vs vg vb : ℝ) (an : AnalysisInfo) (opts : Options)
    (hj : intp.source_junc = intp.drain_junc) :
    (Mos1.op_stamp_inner model intp (mirrorOp op) (!rev) vd vs vg vb an opts).1
        = { (Mos1.op_stamp_inner model intp op rev vd vs vg vb an opts).1 with
            reversed := !rev }
      ∧ (Mos1.op_stamp_inner model intp (mirrorOp op) (!rev) vd vs vg vb an opts).2.g
        = ((Mos1.op_stamp_inner model intp op rev vd vs vg vb an opts).2.g).map mapG
      ∧ (Mos1.op_stamp_inner model intp (mirrorOp op) (!rev) vd vs vg vb an opts).2.b
        = ((Mos1.op_stamp_inner model intp op rev vd vs vg vb an opts).2.b).map mapB := by
  cases rev <;> cases hop : op.reversed <;>
    · refine ⟨?_, ?_, ?_⟩ <;>
        · dsimp only [Mos1.op_stamp_inner, mirrorOp]
          simp [hop, hj, mapG, mapB, roleSwap]

/-- Helper for C5: the drain current computed by the core depends only on
the model, the internal parameters, and the already-swapped terminal
voltages, never on the `reversed` flag, the stored operating point, or the
analysis mode; the two evaluations are definitionally equal. -/
theorem op_stamp_inner_ids (model : Mos1Model) (intp : Mos1InternalParams)
    (op op' : Mos1OpPoint) (rev rev' : Bool) (vd vs vg vb : ℝ)
    (an an' : AnalysisInfo) (opts : Options) :
    (Mos1.op_stamp_inner model intp op' rev' vd vs vg vb an' opts).1.ids
      = (Mos1.op_stamp_inner model intp op rev vd vs vg vb an opts).1.ids := rfl

/-- Claim C5, amended: the device sets reversed exactly when
p (V_d - V_s) is negative, and evaluating with the drain and source
voltages exchanged always yields the same drain-current magnitude; both
hold unconditionally, for every device, stored history, and analysis mode,
because the channel current reads only the current-iterate voltages. The
exchange of the drain-like and source-like stamp and right-hand-side roles
additionally requires the derived source and drain junction parameters to
coincide (the counterexample shows the bulk-junction entries follow the
physical junctions otherwise), p (V_d - V_s) nonzero, and the stored
history mirrored to the swapped trajectory. -/
theorem claim_c5_reversal (m : Mos1) (v : Mos1Vars ℝ) (an : AnalysisInfo) (opts : Options) :
    ((m.op_stamp v an opts).1.reversed = true ↔ m.model.p * (v.d - v.s) < 0)
      ∧ |(m.op_stamp (swapDS v) an opts).1.ids| = |(m.op_stamp v an opts).1.ids|
      ∧ (m.intparams.source_junc = m.intparams.drain_junc →
          m.model.p * (v.d - v.s) ≠ 0 →
          ({ m with op := mirrorOp m.op }.op_stamp (swapDS v) an opts).2.g
              = ((m.op_stamp v an opts).2.g).map mapG
            ∧ ({ m with op := mirrorOp m.op }.op_stamp (swapDS v) an opts).2.b
              = ((m.op_stamp v an opts).2.b).map mapB) := by
  have hflag : (m.op_stamp v an opts).1.reversed = decide (m.model.p * (v.d - v.s) < 0) := rfl
  refine ⟨by rw [hflag]; simp, ?_, ?_⟩
  · -- drain-current magnitude, unconditionally
    rcases lt_trichotomy (m.model.p * (v.d - v.s)) 0 with hlt | heq | hgt
    · rw [op_stamp_reversed m v an opts hlt,
        op_stamp_not_reversed m (swapDS v) an opts (by dsimp only [swapDS]; nlinarith [hlt])]
      dsimp only [swapDS]
      rfl
    · have hp : m.model.p = 1 ∨ m.model.p = -1 := by
        cases h : m.model.mos_type <;> simp [Mos1Model.p, MosType.p, h]
      have hd : v.d = v.s := by
        rcases hp with h1 | h1 <;> (rw [h1] at heq; linarith)
      have h1 : ¬(m.model.p * ((swapDS v).d - (swapDS v).s) < 0) := by
        dsimp only [swapDS]
        rw [hd]
        simp
      have h2 : ¬(m.model.p * (v.d - v.s) < 0) := by
        rw [hd]
        simp
      rw [op_stamp_not_reversed m (swapDS v) an opts h1, op_stamp_not_reversed m v an opts h2]
      dsimp only [swapDS]
      rw [hd]
    · rw [op_stamp_not_reversed m v an opts (not_lt.mpr (le_of_lt hgt)),
        op_stamp_reversed m (swapDS v) an opts (by dsimp only [swapDS]; nlinarith [hgt])]
      dsimp only [swapDS]
      rfl
  · -- role exchange, under the forced hypotheses
    intro hj hne
    rcases lt_or_gt_of_ne hne with hlt | hgt
    · -- originally reversed; the swapped evaluation is not reversed
      have h2 : ¬({ m with op := mirrorOp m.op } : Mos1).model.p
          * ((swapDS v).d - (swapDS v).s) < 0 := by
        dsimp only [swapDS]
        nlinarith [hlt]
      rw [op_stamp_reversed m v an opts hlt,
        op_stamp_not_reversed { m with op := mirrorOp m.op } (swapDS v) an opts h2]
      dsimp only [swapDS]
      have key := op_stamp_inner_swap m.model m.intparams m.op true v.s v.d v.g v.b an opts hj
      simp only [Bool.not_true] at key
      exact ⟨key.2.1, key.2.2⟩
    · -- originally not reversed; the swapped evaluation is reversed
      have h1 : ¬(m.model.p * (v.d - v.s) < 0) := not_lt.mpr (le_of_lt hgt)
      have h2 : ({ m with op := mirrorOp m.op } : Mos1).model.p
          * ((swapDS v).d - (swapDS v).s) < 0 := by
        dsimp only [swapDS]
        nlinarith [hgt]
      rw [op_stamp_not_reversed m v an opts h1,
        op_stamp_reversed { m with op := mirrorOp m.op } (swapDS v) an opts h2]
      dsimp only [swapDS]
      have key := op_stamp_inner_swap m.model m.intparams m.op false v.d v.s v.g v.b an opts hj
      simp only [Bool.not_false] at key
      exact ⟨key.2.1, key.2.2⟩

/-- Claim C5, counterexample: for the claim as stated, over every terminal
assignment and every device, exchanging drain and source voltages would
exchange the stamp roles; the asymmetric device (drain junction saturation
current 2, source junction 1) at drain 1 V, bulk 1 V refutes it: the
bulk-to-drain-role conductance entry carries the drain-junction conductance
in one evaluation and the source-junction conductance in the other. -/
theorem claim_c5_counterexample :
    ¬((mAsym.op_stamp (swapDS v5) .dcop opts0).2.g
        = ((mAsym.op_stamp v5 .dcop opts0).2.g).map mapG) := by
  intro h
  rw [op_stamp_reversed mAsym (swapDS v5) .dcop opts0
      (by norm_num [mAsym, mSym, mC1, Mos1Model.p, MosType.p, swapDS, v5]),
    op_stamp_not_reversed mAsym v5 .dcop opts0
      (by norm_num [mAsym, mSym, mC1, Mos1Model.p, MosType.p, v5])] at h
  dsimp only [Mos1.op_stamp_inner] at h
  norm_num [mapG, roleSwap, mAsym, mSym, intpEx, jEx, v5, swapDS, opts0, mC1,
    Mos1Model.p, MosType.p, Real.exp_zero] at h

/-- Claim C5, witness: at the symmetric concrete device with drain at 1 V
and source grounded, the role-exchange hypotheses hold and the full
conclusion follows, the unconditional parts included. -/
theorem claim_c5_witness :
    mSym.intparams.source_junc = mSym.intparams.drain_junc
      ∧ mSym.model.p * (v5.d - v5.s) ≠ 0
      ∧ (((mSym.op_stamp v5 .dcop opts0).1.reversed = true
            ↔ mSym.model.p * (v5.d - v5.s) < 0)
        ∧ |(mSym.op_stamp (swapDS v5) .dcop opts0).1.ids|
            = |(mSym.op_stamp v5 .dcop opts0).1.ids|
        ∧ (({ mSym with op := mirrorOp mSym.op }.op_stamp (swapDS v5) .dcop opts0).2.g
              = ((mSym.op_stamp v5 .dcop opts0).2.g).map mapG
            ∧ ({ mSym with op := mirrorOp mSym.op }.op_stamp (swapDS v5) .dcop opts0).2.b
              = ((mSym.op_stamp v5 .dcop opts0).2.b).map mapB)) := by
  have h1 : mSym.intparams.source_junc = mSym.intparams.drain_junc := rfl
  have h2 : mSym.model.p * (v5.d - v5.s) ≠ 0 := by
    norm_num [mSym, mC1, Mos1Model.p, MosType.p, v5]
  have hc := claim_c5_reversal mSym v5 .dcop opts0
  exact ⟨h1, h2, hc.1, hc.2.1, hc.2.2 h1 h2⟩

/-- Helper: an error result satisfies PathOk whenever the error is not the
fuel sentinel. -/
theorem pathOk_error (err : ElabErr) (p0 : List String) (h : err ≠ .outOfFuel) :
    PathOk (.error err) p0 := by
  refine ⟨?_, ?_⟩
  · intro hc
    exact h (by simpa using hc)
  · intro e2 ns2 hok
    exact Except.noConfusion hok

/-- Helper: a success result satisfies PathOk when its path is the entry
path. -/
theorem pathOk_ok (e2 : Elaborator) (ns2 : NS) (p0 : List String) (h : e2.path = p0) :
    PathOk (.ok (e2, ns2)) p0 := by
  refine ⟨by simp, ?_⟩
  intro e3 ns3 hok
  simp only [Except.ok.injEq, Prod.mk.injEq] at hok
  rw [← hok.1]
  exact h

/-- Helper: `node_var` never reports the fuel sentinel. -/
theorem node_var_not_oof (e : Elaborator) (ns : NS) (node : NodeRef) (auto : Bool) :
    node_var e ns node auto ≠ .error .outOfFuel := by
  cases auto
  · dsimp only [node_var]
    simp only [Bool.false_eq_true, if_false]
    cases nsGet ns (s node) <;> simp
  · dsimp only [node_var]
    simp only [if_true]
    cases node <;> simp

/-- Helper: a successful `node_var` restores the hierarchical path. -/
theorem node_var_path (e : Elaborator) (ns : NS) (node : NodeRef) (auto : Bool)
    (v : Option Nat) (e1 : Elaborator) (ns1 : NS)
    (h : node_var e ns node auto = .ok (v, e1, ns1)) : e1.path = e.path := by
  cases auto
  · dsimp only [node_var] at h
    simp only [Bool.false_eq_true, if_false] at h
    cases hg : nsGet ns (s node) with
    | none => rw [hg] at h; exact Except.noConfusion h
    | some var =>
      rw [hg] at h
      simp only [Except.ok.injEq, Prod.mk.injEq] at h
      rw [← h.2.1]
  · dsimp only [node_var] at h
    simp only [if_true] at h
    cases node with
    | gnd =>
      simp only [Except.ok.injEq, Prod.mk.injEq] at h
      rw [← h.2.1]
    | name str =>
      simp only [Except.ok.injEq, Prod.mk.injEq] at h
      rw [← h.2.1]
      simp
    | num n =>
      simp only [Except.ok.injEq, Prod.mk.injEq] at h
      rw [← h.2.1]
      simp

/-- Helper: `elaborate_signal` restores the hierarchical path. -/
theorem elaborate_signal_path (e : Elaborator) (ns : NS) (sg : String) :
    (elaborate_signal e ns sg).1.path = e.path := by
  simp [elaborate_signal]

/-- Helper: the signal loop restores the hierarchical path. -/
theorem elaborate_signals_path (sgs : List String) :
    ∀ e ns, (elaborate_signals e ns sgs).1.path = e.path := by
  induction sgs with
  | nil => intro e ns; rfl
  | cons sg rest ih =>
    intro e ns
    show (elaborate_signals (elaborate_signal e ns sg).1 (elaborate_signal e ns sg).2 rest).1.path
      = e.path
    rw [ih]
    exact elaborate_signal_path e ns sg

/-- Helper: sequencing under PathOk; the first computation may restore a
different path than the target. -/
theorem pathOk_bind (x : Except ElabErr (Elaborator × NS))
    (k : Elaborator × NS → Except ElabErr (Elaborator × NS)) (p0 p1 : List String)
    (hx : PathOk x p1)
    (hk : ∀ e1 ns1, x = .ok (e1, ns1) → e1.path = p1 → PathOk (k (e1, ns1)) p0) :
    PathOk (x >>= k) p0 := by
  cases hx' : x with
  | error err =>
    have herr : err ≠ .outOfFuel := fun hh => hx.1 (by rw [hx', hh])
    exact pathOk_error err p0 herr
  | ok pr =>
    obtain ⟨e1, ns1⟩ := pr
    show PathOk (k (e1, ns1)) p0
    exact hk e1 ns1 hx' (hx.2 e1 ns1 hx')

/-- Helper: sequencing a `node_var` step under PathOk. -/
theorem pathOk_nv_bind (e : Elaborator) (ns : NS) (node : NodeRef) (auto : Bool)
    (k : Option Nat × Elaborator × NS → Except ElabErr (Elaborator × NS)) (p0 : List String)
    (hk : ∀ v e1 ns1, node_var e ns node auto = .ok (v, e1, ns1) → e1.path = e.path →
      PathOk (k (v, e1, ns1)) p0) :
    PathOk (node_var e ns node auto >>= k) p0 := by
  cases hnv : node_var e ns node auto with
  | error err =>
    have herr : err ≠ .outOfFuel := fun hh => node_var_not_oof e ns node auto (by rw [hnv, hh])
    exact pathOk_error err p0 herr
  | ok tri =>
    obtain ⟨v, e1, ns1⟩ := tri
    show PathOk (k (v, e1, ns1)) p0
    exact hk v e1 ns1 hnv (node_var_path e ns node auto v e1 ns1 hnv)

/-- Helper: instance elaboration inherits PathOk from module-instance
elaboration at the same fuel. -/
theorem pinst_of_pmi (fuel : Nat)
    (hmi : ∀ e ns mi, 1025 ≤ fuel + e.path.length →
      PathOk (elaborate_module_inst fuel e ns mi) e.path) :
    ∀ (e : Elaborator) (ns : NS) (inst : Comp) (auto : Bool),
      1025 ≤ fuel + e.path.length →
      PathOk (elaborate_instance fuel e ns inst auto) e.path := by
  intro e ns inst auto hF
  cases inst with
  | r p n =>
    simp only [elaborate_instance]
    refine pathOk_nv_bind e ns p auto _ _ ?_
    intro v e1 ns1 _ hp1
    refine pathOk_nv_bind e1 ns1 n auto _ _ ?_
    intro v2 e2 ns2 _ hp2
    exact pathOk_ok _ _ _ (by rw [hp2, hp1])
  | c p n =>
    simp only [elaborate_instance]
    refine pathOk_nv_bind e ns p auto _ _ ?_
    intro v e1 ns1 _ hp1
    refine pathOk_nv_bind e1 ns1 n auto _ _ ?_
    intro v2 e2 ns2 _ hp2
    exact pathOk_ok _ _ _ (by rw [hp2, hp1])
  | i p n =>
    simp only [elaborate_instance]
    refine pathOk_nv_bind e ns p auto _ _ ?_
    intro v e1 ns1 _ hp1
    refine pathOk_nv_bind e1 ns1 n auto _ _ ?_
    intro v2 e2 ns2 _ hp2
    exact pathOk_ok _ _ _ (by rw [hp2, hp1])
  | d dname hasRs p n =>
    simp only [elaborate_instance]
    refine pathOk_nv_bind e ns p auto _ _ ?_
    intro v e1 ns1 _ hp1
    refine pathOk_nv_bind e1 ns1 n auto _ _ ?_
    intro v2 e2 ns2 _ hp2
    split_ifs
    · exact pathOk_ok _ _ _ (by simp [hp2, hp1])
    · exact pathOk_ok _ _ _ (by rw [hp2, hp1])
  | v vname p n =>
    simp only [elaborate_instance]
    refine pathOk_nv_bind _ ns p auto _ _ ?_
    intro v e1 ns1 _ hp1
    refine pathOk_nv_bind e1 ns1 n auto _ _ ?_
    intro v2 e2 ns2 _ hp2
    exact pathOk_ok _ _ _ (by rw [hp2, hp1])
  | mos mname mmodel mparams dN gN sN bN =>
    simp only [elaborate_instance]
    refine pathOk_nv_bind e ns dN auto _ _ ?_
    intro v1 e1 ns1 _ hp1
    refine pathOk_nv_bind e1 ns1 gN auto _ _ ?_
    intro v2 e2 ns2 _ hp2
    refine pathOk_nv_bind e2 ns2 sN auto _ _ ?_
    intro v3 e3 ns3 _ hp3
    refine pathOk_nv_bind e3 ns3 bN auto _ _ ?_
    intro v4 e4 ns4 _ hp4
    have hpath : e4.path = e.path := by rw [hp4, hp3, hp2, hp1]
    split_ifs <;> first
      | exact pathOk_ok _ _ _ hpath
      | exact pathOk_error _ _ (by simp)
  | module mi =>
    simp only [elaborate_instance]
    exact hmi e ns mi hF

/-- Helper: the component loop inherits PathOk from instance elaboration
at the same fuel. -/
theorem pinsts_of_pinst (fuel : Nat)
    (hinst : ∀ (e : Elaborator) (ns : NS) (inst : Comp) (auto : Bool),
      1025 ≤ fuel + e.path.length →
      PathOk (elaborate_instance fuel e ns inst auto) e.path) :
    ∀ (l : List (Option Comp)) (e : Elaborator) (ns : NS),
      1025 ≤ fuel + e.path.length →
      PathOk (elaborate_insts fuel e ns l) e.path := by
  intro l
  induction l with
  | nil =>
    intro e ns _
    simp only [elaborate_insts]
    exact pathOk_ok _ _ _ rfl
  | cons hd rest ih =>
    intro e ns hF
    cases hd with
    | none =>
      simp only [elaborate_insts]
      exact pathOk_error _ _ (by simp)
    | some cx =>
      simp only [elaborate_insts]
      refine pathOk_bind _ _ _ e.path (hinst e ns cx false hF) ?_
      intro e1 ns1 _ hp1
      have := ih e1 ns1 (by rw [hp1]; exact hF)
      rw [hp1] at this
      exact this

/-- Helper: module-body elaboration inherits PathOk from the component
loop at the same fuel. -/
theorem pmod_of_pinsts (fuel : Nat)
    (hinsts : ∀ (l : List (Option Comp)) (e : Elaborator) (ns : NS),
      1025 ≤ fuel + e.path.length →
      PathOk (elaborate_insts fuel e ns l) e.path) :
    ∀ (e : Elaborator) (ns : NS) (mdef : ModuleDef),
      1025 ≤ fuel + e.path.length →
      PathOk (elaborate_module fuel e ns mdef) e.path := by
  intro e ns mdef hF
  cases mdef with
  | mk nm sgs cps =>
    simp only [elaborate_module]
    have hp := elaborate_signals_path sgs e ns
    have := hinsts cps (elaborate_signals e ns sgs).1 (elaborate_signals e ns sgs).2
      (by rw [hp]; exact hF)
    rw [hp] at this
    exact this

/-- Helper: at zero fuel and a saturated depth allowance, module-instance
elaboration reports an error before the fuel sentinel can be reached. -/
theorem pmi_zero :
    ∀ (e : Elaborator) (ns : NS) (mi : ModuleI),
      1025 ≤ 0 + e.path.length →
      PathOk (elaborate_module_inst 0 e ns mi) e.path := by
  intro e ns mi hF
  rw [elaborate_module_inst]
  cases hl : e.defs.modules.lookup mi.module with
  | none => exact pathOk_error _ _ (by simp)
  | some mdef =>
    cases hb : build_inst_ns ns mi.ports with
    | none => exact pathOk_error _ _ (by simp)
    | some inst_ns =>
      dsimp only
      have hlen : 1024 < (e.path ++ [mi.name]).length := by
        simp
        omega
      rw [if_pos hlen]
      exact pathOk_error _ _ (by simp)

/-- Helper: the module-instance step at positive fuel, given PathOk for
module bodies at one less fuel. -/
theorem pmi_succ (fuel : Nat)
    (hmod : ∀ (e : Elaborator) (ns : NS) (mdef : ModuleDef),
      1025 ≤ fuel + e.path.length →
      PathOk (elaborate_module fuel e ns mdef) e.path) :
    ∀ (e : Elaborator) (ns : NS) (mi : ModuleI),
      1025 ≤ (fuel + 1) + e.path.length →
      PathOk (elaborate_module_inst (fuel + 1) e ns mi) e.path := by
  intro e ns mi hF
  rw [elaborate_module_inst]
  cases hl : e.defs.modules.lookup mi.module with
  | none => exact pathOk_error _ _ (by simp)
  | some mdef =>
    cases hb : build_inst_ns ns mi.ports with
    | none => exact pathOk_error _ _ (by simp)
    | some inst_ns =>
      dsimp only
      by_cases hdeep : 1024 < (e.path ++ [mi.name]).length
      · rw [if_pos hdeep]
        exact pathOk_error _ _ (by simp)
      · rw [if_neg hdeep]
        have hF2 : 1025 ≤ fuel + ({ e with path := e.path ++ [mi.name] } : Elaborator).path.length := by
          simp
          omega
        refine pathOk_bind _ _ _ (e.path ++ [mi.name])
          (hmod { e with path := e.path ++ [mi.name] } inst_ns mdef hF2) ?_
        intro e2 ns2 _ hp2
        exact pathOk_ok _ _ _ (by simp [hp2])

/-- Helper: the joint fuel invariant for all four elaboration functions:
whenever fuel plus current depth is at least 1025, the fuel sentinel is
unreachable and success restores the path. -/
theorem elab_invariant (fuel : Nat) :
    (∀ e ns mi, 1025 ≤ fuel + e.path.length →
      PathOk (elaborate_module_inst fuel e ns mi) e.path)
    ∧ (∀ e ns inst auto, 1025 ≤ fuel + e.path.length →
      PathOk (elaborate_instance fuel e ns inst auto) e.path)
    ∧ (∀ l e ns, 1025 ≤ fuel + e.path.length →
      PathOk (elaborate_insts fuel e ns l) e.path)
    ∧ (∀ e ns mdef, 1025 ≤ fuel + e.path.length →
      PathOk (elaborate_module fuel e ns mdef) e.path) := by
  induction fuel with
  | zero =>
    have hmi := pmi_zero
    have hinst := pinst_of_pmi 0 hmi
    have hinsts := pinsts_of_pinst 0 hinst
    exact ⟨hmi, hinst, hinsts, pmod_of_pinsts 0 hinsts⟩
  | succ fuel ih =>
    have hmi := pmi_succ fuel ih.2.2.2
    have hinst := pinst_of_pmi (fuel + 1) hmi
    have hinsts := pinsts_of_pinst (fuel + 1) hinst
    exact ⟨hmi, hinst, hinsts, pmod_of_pinsts (fuel + 1) hinsts⟩

/-- Claim C10: elaborating a module instance pushes one path segment and
aborts with an elaboration error whenever the hierarchical path (including
the pushed segment) would exceed 1024 levels, so recursive or cyclic module
definitions cannot elaborate beyond depth 1024; on success the path is
restored to its pre-call value. Termination is witnessed by the embedding
itself (a total function over an explicit nesting bound), together with the
proof that the bound's `outOfFuel` sentinel is unreachable whenever the
fuel exceeds the remaining depth allowance, so the recursion depth is
bounded by the 1024-level check alone. -/
theorem claim_c10_elaboration_depth (fuel : Nat) (e : Elaborator) (ns : NS) (mi : ModuleI) :
    (1024 ≤ e.path.length →
      ∃ err, elaborate_module_inst fuel e ns mi = .error err)
    ∧ (1025 ≤ fuel + e.path.length →
      elaborate_module_inst fuel e ns mi ≠ .error .outOfFuel
      ∧ ∀ e2 ns2, elaborate_module_inst fuel e ns mi = .ok (e2, ns2) → e2.path = e.path) := by
  constructor
  · intro hdeep
    rw [elaborate_module_inst]
    cases hl : e.defs.modules.lookup mi.module with
    | none => exact ⟨_, rfl⟩
    | some mdef =>
      cases hb : build_inst_ns ns mi.ports with
      | none => exact ⟨_, rfl⟩
      | some inst_ns =>
        refine ⟨.tooDeep, ?_⟩
        dsimp only
        rw [if_pos (by simp; omega)]
  · intro hF
    exact (elab_invariant fuel).1 e ns mi hF

/-- Claim C10, witness: at a path already 1024 segments deep, both
hypotheses hold; module-instance elaboration reports an error and the
error is not the fuel sentinel. -/
theorem claim_c10_witness :
    1024 ≤ e1024.path.length
      ∧ 1025 ≤ 5 + e1024.path.length
      ∧ (∃ err, elaborate_module_inst 5 e1024 [] mi0 = .error err)
      ∧ elaborate_module_inst 5 e1024 [] mi0 ≠ .error .outOfFuel := by
  have hp : e1024.path.length = 1024 := by
    show (List.replicate 1024 "x").length = 1024
    rw [List.length_replicate]
  have h1 : 1024 ≤ e1024.path.length := by rw [hp]
  have h2 : 1025 ≤ 5 + e1024.path.length := by rw [hp]; omega
  have hc := claim_c10_elaboration_depth 5 e1024 [] mi0
  exact ⟨h1, h2, hc.1 h1, (hc.2 h2).1⟩

end Spice21
